import Mathlib

/-!
Verification development for the DataMagic script (`src/script.py`).

The script keeps, per Streamlit session, an original DataFrame
(`df_original`), the working DataFrame (`df_transformed`), a transformation
log (`transformations`) and the uploaded file's name (`file_id`).  A user
instruction is sent to a generative service (`get_ai_command`), the
returned statement is cleaned of markdown fences and executed via `exec`
in a scope binding `df`, `pd`, `np`; on success the working DataFrame is
replaced and a log entry is appended.

This file shallowly embeds those operations.  DataFrames become the value
type `Dataset`; `exec` of an arbitrary generated statement becomes an
oracle function `String → Dataset → ExecResult`; the generative-service
round trip becomes an oracle `String → Except String String` (`.error`
models a raised exception).  A crucial point of fidelity: the `exec`
scope binds the *live* working DataFrame object, not a copy, so a
statement may mutate it in place and then raise; `ExecResult.err` records
the content of that object at raise time, and `applyChanges` installs it
as the session's working dataset on the error path, just as the aliasing
in the Python code does.
-/

namespace DataMagic

/-- An in-memory table: a header of column names and a list of rows
(cell values kept as strings; the claims under study never depend on cell
typing, only on row counts and whole-table content equality). -/
structure Dataset where
  header : List String
  rows : List (List String)
deriving DecidableEq, Repr

/-- Model of pandas `DataFrame.copy()` (a deep copy; with value semantics
this is content-identity). -/
def Dataset.copy (d : Dataset) : Dataset :=
  ⟨d.header, d.rows⟩

/-- Model of `df.head()`: the first five rows (pandas default `n=5`). -/
def headSample (d : Dataset) : Dataset :=
  ⟨d.header, d.rows.take 5⟩

/-- Serialization `str(df.head().to_dict())` from line 62 of the script.
The exact Python dict formatting is abstracted by the derived `Repr`
rendering; the string is only embedded into the prompt handed to the
service oracle, and no claim depends on its format. -/
def dfHeadStr (d : Dataset) : String :=
  reprStr (headSample d)

/-- One entry of `st.session_state.transformations` (lines 78-82). -/
structure LogEntry where
  step : Nat
  description : String
  rows_affected : Int
deriving DecidableEq, Repr

/-- The per-session state kept in `st.session_state` (lines 47-51). -/
structure Session where
  file_id : String
  df_original : Dataset
  df_transformed : Dataset
  transformations : List LogEntry
deriving DecidableEq, Repr

/-- Session initialization on a fresh or renamed upload (lines 48-51):
`file_id := name`, `df_original := pd.read_csv(...)`,
`df_transformed := df_original.copy()`, `transformations := []`. -/
def initSession (name : String) (parsed : Dataset) : Session :=
  { file_id := name
    df_original := parsed
    df_transformed := parsed.copy
    transformations := [] }

/-- The upload branch (lines 46-51): reinitialize only when no session
exists or the uploaded file's name differs from the stored `file_id`;
`pd.read_csv` runs only in that case (its outcome is the `parseResult`
argument, `.error` modelling a parse failure). -/
def handleUpload (sess : Option Session) (name : String)
    (parseResult : Except String Dataset) : Except String Session :=
  match sess with
  | none => parseResult.map (initSession name)
  | some s => if s.file_id = name then Except.ok s else parseResult.map (initSession name)

/-! ## The translator (`get_ai_command`, lines 18-36) -/

/-- ASCII whitespace, as stripped by Python `str.strip()` (the further
Unicode whitespace Python strips plays no role here). -/
def isSpaceChar (c : Char) : Bool :=
  c == ' ' || c == '\t' || c == '\n' || c == '\r' || c == '\x0b' || c == '\x0c'

/-- Python `str.strip()`: drop leading and trailing whitespace. -/
def pyStrip (l : List Char) : List Char :=
  ((l.dropWhile isSpaceChar).reverse.dropWhile isSpaceChar).reverse

/-- Recursion core of Python `str.replace(old, new)`: scan left to right,
replacing non-overlapping occurrences of `pat`.  The fuel argument (always
instantiated with the input length, which bounds the number of steps)
only makes the recursion structural; the `0, l` arm is unreachable under
that instantiation. -/
def replFuel (pat rep : List Char) : Nat → List Char → List Char
  | 0, l => l
  | _ + 1, [] => []
  | n + 1, c :: cs =>
    if pat ≠ [] ∧ pat.isPrefixOf (c :: cs) then
      rep ++ replFuel pat rep n ((c :: cs).drop pat.length)
    else
      c :: replFuel pat rep n cs

/-- Python `str.replace(old, new)` for the non-empty patterns the script
uses: every non-overlapping occurrence of `pat` in `l`, scanned left to
right, is replaced by `rep`. -/
def pyReplace (pat rep l : List Char) : List Char :=
  replFuel pat rep l.length l

/-- The fence marker `"```"` of line 33. -/
def fence : List Char := "```".toList

/-- The fence marker `"```python"` of line 33. -/
def fencePython : List Char := "```python".toList

/-- Line 33: `response.text.strip().replace("```python", "").replace("```", "").strip()`. -/
def cleanResponse (t : String) : String :=
  String.mk (pyStrip (pyReplace fence [] (pyReplace fencePython [] (pyStrip t.data))))

/-- The prompt rendered by the f-string of lines 20-30 (placeholders
become concatenation). -/
def promptFor (user_query df_head : String) : String :=
  "\n    You are an expert Python data scientist.\n    Given a pandas DataFrame named `df` with these first few rows:\n    "
    ++ df_head
    ++ "\n\n    Write a single, executable line of Python code to perform the following task:\n    \x27"
    ++ user_query
    ++ "\x27\n\n    The code must manipulate the DataFrame `df` directly. Do not add any explanation, comments, or markdown formatting.\n    Only return the raw Python code.\n    "

/-- `get_ai_command` (lines 18-36).  The generative round trip
`model.generate_content(prompt)` together with the `response.text` access
is the oracle `svc`; `.error` models any exception raised inside the
`try`, in which case the function returns `None`; otherwise the response
text is cleaned of fences and returned. -/
def get_ai_command (user_query df_head : String)
    (svc : String → Except String String) : Option String :=
  match svc (promptFor user_query df_head) with
  | Except.ok text => some (cleanResponse text)
  | Except.error _ => none

/-! ## The executor and the Apply Changes handler (lines 60-91) -/

/-- Outcome of `exec(ai_code, exec_scope)` on a working dataset.  The
scope binds the session's working DataFrame object itself (line 72 passes
`st.session_state.df_transformed`, not a copy), so:
`ok bound` means execution completed and `exec_scope['df']` finally held
`bound` (the original object mutated in place, or a rebound new table);
`err msg aliased` means execution (or the `exec_scope['df']` lookup)
raised with message `msg`, with `aliased` the content of the working
DataFrame object at raise time — in-place mutations performed before the
failure are part of it. -/
inductive ExecResult where
  | ok (bound : Dataset)
  | err (msg : String) (aliased : Dataset)
deriving DecidableEq, Repr

/-- What the handler surfaces to the user for one Apply Changes click. -/
inductive Outcome where
  | success
  | execError (msg : String)
  | couldNotGenerate
  | emptyCommand
deriving DecidableEq, Repr

/-- The user-visible message of each outcome (lines 84, 87, 89, 91). -/
def surfacedMessage : Outcome → String
  | Outcome.success => "Transformation applied successfully!"
  | Outcome.execError msg => "Oops! An error occurred: " ++ msg
  | Outcome.couldNotGenerate => "Could not generate a command."
  | Outcome.emptyCommand => "Please enter a command."

/-- Whether an outcome was a successful application. -/
def isSuccess : Outcome → Bool
  | Outcome.success => true
  | _ => false

/-- The Apply Changes handler (lines 60-91).  `svc` is the generative
service oracle, `run` the semantics of `exec` of the generated statement
on the working dataset.  Mirrors the source line by line: empty command →
warning; falsy `ai_code` (`None` or `""`) → warning; otherwise
`rows_before = len(df_transformed)` is taken, the statement is executed,
and on completion the working dataset becomes `exec_scope['df']` and a
log entry `{step, description, rows_affected}` is appended; on an
exception the handler catches it, surfaces the message, and leaves the
session fields alone — but the working DataFrame object itself carries
any in-place mutations (`aliased`). -/
def applyChanges (s : Session) (user_command : String)
    (svc : String → Except String String)
    (run : String → Dataset → ExecResult) : Session × Outcome :=
  if user_command = "" then
    (s, Outcome.emptyCommand)
  else
    match get_ai_command user_command (dfHeadStr s.df_original) svc with
    | none => (s, Outcome.couldNotGenerate)
    | some ai_code =>
      if ai_code = "" then
        (s, Outcome.couldNotGenerate)
      else
        match run ai_code s.df_transformed with
        | ExecResult.ok bound =>
          ({ s with
              df_transformed := bound
              transformations := s.transformations ++
                [⟨s.transformations.length + 1, user_command,
                  (bound.rows.length : Int) - (s.df_transformed.rows.length : Int)⟩] },
            Outcome.success)
        | ExecResult.err msg aliased =>
          ({ s with df_transformed := aliased }, Outcome.execError msg)

/-- The Reset Data handler (lines 94-96):
`df_transformed := df_original.copy()`, `transformations := []`. -/
def resetData (s : Session) : Session :=
  { s with df_transformed := s.df_original.copy, transformations := [] }

/-! ## Sequences of user actions -/

/-- One Apply Changes click: the instruction typed by the user together
with the behaviour of the two external oracles for that click. -/
structure Call where
  cmd : String
  svc : String → Except String String
  run : String → Dataset → ExecResult

/-- Run a sequence of Apply Changes clicks, collecting the surfaced
outcomes in order. -/
def runCalls (s : Session) : List Call → Session × List Outcome
  | [] => (s, [])
  | c :: cs =>
    let r := applyChanges s c.cmd c.svc c.run
    let rest := runCalls r.1 cs
    (rest.1, r.2 :: rest.2)

/-- A user action that touches session state: an Apply Changes click or
a Reset Data click. -/
inductive Op where
  | apply (cmd : String) (svc : String → Except String String)
      (run : String → Dataset → ExecResult)
  | reset

/-- Apply one user action to the session. -/
def runOp (s : Session) : Op → Session
  | Op.apply cmd svc run => (applyChanges s cmd svc run).1
  | Op.reset => resetData s

/-- Apply a sequence of user actions to the session. -/
def runOps (s : Session) : List Op → Session
  | [] => s
  | op :: ops => runOps (runOp s op) ops

/-- The instructions of the successful calls of a run, in order,
aligned with the outcome list produced by `runCalls`. -/
def successDescriptions : List Call → List Outcome → List String
  | [], _ => []
  | _ :: _, [] => []
  | c :: cs, o :: os =>
    if isSuccess o then c.cmd :: successDescriptions cs os
    else successDescriptions cs os

/-! ## Definitions written from the claims (for refutation / comparison) -/

/-- Formalisation of the behaviour described by claim C6 (not of the
code): remove a fence marker only when it stands as the leading
delimiter of the text. -/
def dropLeadingFenceMarker (l : List Char) : List Char :=
  if fencePython.isPrefixOf l then l.drop fencePython.length
  else if fence.isPrefixOf l then l.drop fence.length
  else l

/-- Formalisation of the behaviour described by claim C6 (not of the
code): remove a fence marker only when it stands as the trailing
delimiter of the text. -/
def dropTrailingFenceMarker (l : List Char) : List Char :=
  if fence.reverse.isPrefixOf l.reverse then (l.reverse.drop fence.length).reverse
  else l

/-- Formalisation of claim C6 as written: trim whitespace, strip fence
markers only as leading/trailing delimiters (never from the interior of
the statement), trim whitespace again. -/
def delimOnlyClean (t : String) : String :=
  String.mk (pyStrip (dropTrailingFenceMarker (dropLeadingFenceMarker (pyStrip t.data))))

/-- The backtick character (written without a bare backtick literal). -/
def tickChar : Char := "`".toList.headD ' '

/-- Length of the leading run of backticks of a character list. -/
def leadTicks (l : List Char) : Nat :=
  (l.takeWhile (fun c => c == tickChar)).length

/-! ## Concrete sample data for witnesses and counterexamples -/

/-- The dataset of the spec's example scenario 1: one `age` column with
rows 17, 20, 35. -/
def agesDs : Dataset := ⟨["age"], [["17"], ["20"], ["35"]]⟩

/-- A freshly loaded session holding `agesDs`. -/
def sampleSession : Session := ⟨"data.csv", agesDs, agesDs, []⟩

/-- Service oracle answering with a row-dropping statement. -/
def svcDrop : String → Except String String :=
  fun _ => Except.ok "df = df.iloc[1:]"

/-- Executor oracle for a statement that rebinds `df` to the table
without its first row. -/
def runDrop : String → Dataset → ExecResult :=
  fun _ d => ExecResult.ok ⟨d.header, d.rows.drop 1⟩

/-- Service oracle answering with a statement that mutates `df` in place
and then raises. -/
def svcBoom : String → Except String String :=
  fun _ => Except.ok "df.drop(df.index, inplace=True) and boom"

/-- Executor oracle for a statement that first empties `df` in place and
then raises `boom`: the aliased working object is left with no rows. -/
def runErrMut : String → Dataset → ExecResult :=
  fun _ d => ExecResult.err "boom" ⟨d.header, []⟩

/-- Executor oracle for a statement that raises `boom` without touching
`df` first. -/
def runErrPure : String → Dataset → ExecResult :=
  fun _ d => ExecResult.err "boom" d

/-- Service oracle whose round trip raises (network failure). -/
def svcDown : String → Except String String :=
  fun _ => Except.error "network unreachable"

/-- Service oracle returning an empty response text. -/
def svcEmpty : String → Except String String :=
  fun _ => Except.ok ""

/-- The session produced by applying the row-dropping call to
`sampleSession`. -/
def droppedSession : Session :=
  ⟨"data.csv", agesDs, ⟨["age"], [["20"], ["35"]]⟩,
    [⟨1, "drop the first row", -1⟩]⟩

/-- A sample click sequence: a successful drop, a failing statement, and
a second successful drop. -/
def sampleCalls : List Call :=
  [⟨"drop the first row", svcDrop, runDrop⟩,
   ⟨"square the ages", svcBoom, runErrPure⟩,
   ⟨"drop the first row", svcDrop, runDrop⟩]

/-- A response text whose only fence marker sits in the interior of the
statement. -/
def interiorFenced : String := "x = 1 ``` y = 2"

/-! # Theorems

First the general lemmas about the string-cleaning machinery, then the
lemmas about the Apply Changes handler, then one theorem per claim. -/

/-- The fuel argument of `replFuel` is irrelevant as long as it bounds
the input length, so `pyReplace` satisfies the natural recursion
equations. -/
lemma replFuel_congr (pat rep : List Char) :
    ∀ n m l, l.length ≤ n → l.length ≤ m → replFuel pat rep n l = replFuel pat rep m l := by
  intro n
  induction n with
  | zero =>
    intro m l hn _
    have hl : l = [] := List.eq_nil_of_length_eq_zero (Nat.le_zero.mp hn)
    subst hl
    cases m <;> rfl
  | succ n ih =>
    intro m l hn hm
    cases l with
    | nil => cases m <;> rfl
    | cons c cs =>
      cases m with
      | zero => simp at hm
      | succ m2 =>
        have hn2 : cs.length ≤ n := by simpa using hn
        have hm2 : cs.length ≤ m2 := by simpa using hm
        simp only [replFuel]
        by_cases hcond : pat ≠ [] ∧ pat.isPrefixOf (c :: cs)
        · rw [if_pos hcond, if_pos hcond]
          have hpl : 1 ≤ pat.length := List.length_pos.mpr hcond.1
          have hdl : ((c :: cs).drop pat.length).length ≤ cs.length := by
            rw [List.length_drop]
            simp only [List.length_cons]
            omega
          rw [ih _ _ (hdl.trans hn2) (hdl.trans hm2)]
        · rw [if_neg hcond, if_neg hcond, ih _ _ hn2 hm2]

/-- Recursion equation of `pyReplace` on the empty list. -/
lemma pyReplace_nil (pat rep : List Char) : pyReplace pat rep [] = [] := rfl

/-- Recursion equation of `pyReplace` when the pattern matches at the
head: the occurrence is replaced and scanning resumes after it. -/
lemma pyReplace_cons_match {pat : List Char} (rep : List Char) {c : Char} {cs : List Char}
    (h1 : pat ≠ []) (h2 : pat.isPrefixOf (c :: cs)) :
    pyReplace pat rep (c :: cs) = rep ++ pyReplace pat rep ((c :: cs).drop pat.length) := by
  have hpl : 1 ≤ pat.length := List.length_pos.mpr h1
  have hdl : ((c :: cs).drop pat.length).length ≤ cs.length := by
    rw [List.length_drop]
    simp only [List.length_cons]
    omega
  show replFuel pat rep (c :: cs).length (c :: cs) = _
  simp only [List.length_cons, replFuel]
  rw [if_pos ⟨h1, h2⟩]
  exact congrArg (rep ++ ·) (replFuel_congr pat rep cs.length _ _ hdl le_rfl)

/-- Recursion equation of `pyReplace` when the pattern does not match at
the head. -/
lemma pyReplace_cons_nomatch {pat : List Char} (rep : List Char) {c : Char} {cs : List Char}
    (h : ¬(pat ≠ [] ∧ pat.isPrefixOf (c :: cs))) :
    pyReplace pat rep (c :: cs) = c :: pyReplace pat rep cs := by
  show replFuel pat rep (c :: cs).length (c :: cs) = _
  simp only [List.length_cons, replFuel]
  rw [if_neg h]
  rfl

lemma fence_ne_nil : fence ≠ [] := by decide

lemma fence_eq_ticks : fence = [tickChar, tickChar, tickChar] := by decide

lemma fence_prefix_fencePython : fence <+: fencePython :=
  ⟨"python".toList, by decide⟩

lemma leadTicks_cons_tick (l : List Char) : leadTicks (tickChar :: l) = leadTicks l + 1 := by
  simp [leadTicks, List.takeWhile_cons]

lemma leadTicks_cons_ne {c : Char} (h : ¬ c = tickChar) (l : List Char) :
    leadTicks (c :: l) = 0 := by
  simp [leadTicks, List.takeWhile_cons, h]

lemma exists_of_leadTicks_pos {l : List Char} (h : 1 ≤ leadTicks l) :
    ∃ l2, l = tickChar :: l2 := by
  cases l with
  | nil => simp [leadTicks] at h
  | cons c cs =>
    by_cases hc : c = tickChar
    · exact ⟨cs, by rw [hc]⟩
    · rw [leadTicks_cons_ne hc] at h
      omega

lemma exists_of_leadTicks_two {l : List Char} (h : 2 ≤ leadTicks l) :
    ∃ l2, l = tickChar :: tickChar :: l2 := by
  obtain ⟨l1, h1⟩ := exists_of_leadTicks_pos (l := l) (by omega)
  subst h1
  rw [leadTicks_cons_tick] at h
  obtain ⟨l2, h2⟩ := exists_of_leadTicks_pos (l := l1) (by omega)
  exact ⟨l2, by rw [h2]⟩

/-- Replacing every occurrence of the fence marker with the empty string
leaves no occurrence behind, and never lengthens the leading backtick
run.  Induction over a length bound on the input. -/
lemma replaceFence_noFence_aux :
    ∀ n (l : List Char), l.length ≤ n →
      leadTicks (pyReplace fence [] l) ≤ leadTicks l ∧
      ¬ fence <:+: pyReplace fence [] l := by
  intro n
  induction n with
  | zero =>
    intro l hn
    have hl : l = [] := List.eq_nil_of_length_eq_zero (Nat.le_zero.mp hn)
    subst hl
    rw [pyReplace_nil]
    exact ⟨le_rfl, fun hinf => fence_ne_nil (List.sublist_nil.mp hinf.sublist)⟩
  | succ n ih =>
    intro l hn
    cases l with
    | nil =>
      rw [pyReplace_nil]
      exact ⟨le_rfl, fun hinf => fence_ne_nil (List.sublist_nil.mp hinf.sublist)⟩
    | cons c cs =>
      by_cases hpre : fence.isPrefixOf (c :: cs)
      · rw [pyReplace_cons_match [] fence_ne_nil hpre]
        obtain ⟨rest, hrest⟩ := List.isPrefixOf_iff_prefix.mp hpre
        have hdrop : (c :: cs).drop fence.length = rest := by
          rw [← hrest, List.drop_left]
        have hlen : rest.length ≤ n := by
          have hl := congrArg List.length hrest
          simp only [List.length_append, List.length_cons] at hl
          have h3 : fence.length = 3 := by decide
          have hcs : cs.length + 1 ≤ n + 1 := by simpa using hn
          omega
        rw [hdrop]
        obtain ⟨IH1, IH2⟩ := ih rest hlen
        have hlead : leadTicks (c :: cs) = leadTicks rest + 3 := by
          rw [← hrest, fence_eq_ticks]
          show leadTicks (tickChar :: tickChar :: tickChar :: rest) = _
          rw [leadTicks_cons_tick, leadTicks_cons_tick, leadTicks_cons_tick]
        constructor
        · simp only [List.nil_append]
          rw [hlead]
          omega
        · simpa using IH2
      · have hcond : ¬(fence ≠ [] ∧ fence.isPrefixOf (c :: cs)) := fun hco => hpre hco.2
        rw [pyReplace_cons_nomatch [] hcond]
        have hcs : cs.length ≤ n := by simpa using hn
        obtain ⟨IH1, IH2⟩ := ih cs hcs
        by_cases hc : c = tickChar
        · subst hc
          have hlt : leadTicks cs ≤ 1 := by
            by_contra hgt
            push_neg at hgt
            obtain ⟨l2, hl2⟩ := exists_of_leadTicks_two (l := cs) (by omega)
            apply hpre
            rw [hl2]
            refine List.isPrefixOf_iff_prefix.mpr ?_
            rw [fence_eq_ticks]
            exact ⟨l2, rfl⟩
          constructor
          · rw [leadTicks_cons_tick, leadTicks_cons_tick]
            omega
          · intro hinf
            rcases List.infix_cons_iff.mp hinf with hpfx2 | hinf2
            · obtain ⟨u, hu⟩ := hpfx2
              have hu2 : tickChar :: tickChar :: tickChar :: u =
                  tickChar :: pyReplace fence [] cs := by
                rw [← hu, fence_eq_ticks]
                rfl
              have htail : pyReplace fence [] cs = tickChar :: tickChar :: u := by
                injection hu2 with _ h
                exact h.symm
              have h2 : 2 ≤ leadTicks (pyReplace fence [] cs) := by
                rw [htail, leadTicks_cons_tick, leadTicks_cons_tick]
                omega
              omega
            · exact IH2 hinf2
        · constructor
          · rw [leadTicks_cons_ne hc, leadTicks_cons_ne hc]
          · intro hinf
            rcases List.infix_cons_iff.mp hinf with hpfx2 | hinf2
            · obtain ⟨u, hu⟩ := hpfx2
              have hu2 : tickChar :: (tickChar :: tickChar :: u) =
                  c :: pyReplace fence [] cs := by
                rw [← hu, fence_eq_ticks]
                rfl
              have hhead : tickChar = c := by
                injection hu2 with h _
              exact hc hhead.symm
            · exact IH2 hinf2

/-- `pyStrip` is right-drop-while composed with drop-while. -/
lemma pyStrip_eq (l : List Char) :
    pyStrip l = List.rdropWhile isSpaceChar (List.dropWhile isSpaceChar l) := rfl

/-- A prefix of a drop-while fixpoint is itself a drop-while fixpoint. -/
lemma dropWhile_fix_of_front {p : Char → Bool} {X A : List Char}
    (hpre : X <+: A) (hA : List.dropWhile p A = A) :
    List.dropWhile p X = X := by
  cases X with
  | nil => rfl
  | cons x xs =>
    obtain ⟨t, ht⟩ := hpre
    have hxA : A = x :: (xs ++ t) := by rw [← ht]; rfl
    have hx : ¬ p x = true := by
      intro hp
      rw [hxA, List.dropWhile_cons_of_pos hp] at hA
      have hlen := congrArg List.length hA
      have hle : (List.dropWhile p (xs ++ t)).length ≤ (xs ++ t).length :=
        (List.dropWhile_suffix p).length_le
      simp only [List.length_cons] at hlen
      omega
    rw [List.dropWhile_cons_of_neg hx]

/-- Stripping is idempotent: the output of `pyStrip` carries no leading
or trailing whitespace. -/
lemma pyStrip_idem (l : List Char) : pyStrip (pyStrip l) = pyStrip l := by
  rw [pyStrip_eq l, pyStrip_eq]
  rw [dropWhile_fix_of_front (List.rdropWhile_prefix _ _) (List.dropWhile_idempotent ..)]
  exact List.rdropWhile_idempotent ..

/-- The output of `pyStrip` is an infix of its input. -/
lemma pyStrip_within (l : List Char) : pyStrip l <:+: l := by
  rw [pyStrip_eq]
  exact ((List.rdropWhile_prefix _ _).isInfix).trans (List.dropWhile_suffix isSpaceChar).isInfix

/-- Unfolding of the cleaned response at the character-list level. -/
lemma cleanResponse_data (t : String) :
    (cleanResponse t).data =
      pyStrip (pyReplace fence [] (pyReplace fencePython [] (pyStrip t.data))) := rfl

/-- Claim C6, as written, is false on the code: a fence marker in the
interior of the statement is also removed by `str.replace`, not only
leading/trailing delimiters.  Concrete input: a response whose only
triple-backtick marker is interior. -/
theorem C6_counterexample :
    (cleanResponse interiorFenced).data ≠ (delimOnlyClean interiorFenced).data := by decide

/-- Claim C6 (amended): the cleaned response has every occurrence of the
fence markers removed, wherever it occurs — consequently the output
contains no fence marker at all — and it carries no surrounding
whitespace. -/
theorem C6_prop (t : String) :
    ¬ fence <:+: (cleanResponse t).data ∧
    ¬ fencePython <:+: (cleanResponse t).data ∧
    pyStrip (cleanResponse t).data = (cleanResponse t).data := by
  have hNF : ¬ fence <:+: pyReplace fence [] (pyReplace fencePython [] (pyStrip t.data)) :=
    (replaceFence_noFence_aux _ _ le_rfl).2
  refine ⟨?_, ?_, ?_⟩
  · intro h
    rw [cleanResponse_data] at h
    exact hNF (h.trans (pyStrip_within _))
  · intro h
    rw [cleanResponse_data] at h
    exact hNF ((fence_prefix_fencePython.isInfix.trans h).trans (pyStrip_within _))
  · rw [cleanResponse_data]
    exact pyStrip_idem _

/-! ## Lemmas about the Apply Changes handler -/

/-- An empty instruction short-circuits the handler. -/
lemma applyChanges_empty (s : Session) (svc : String → Except String String)
    (run : String → Dataset → ExecResult) :
    applyChanges s "" svc run = (s, Outcome.emptyCommand) := rfl

/-- On a successful click, the handler appends exactly one log entry:
step = previous length + 1, description = the instruction, rows_affected
= new working row count minus old working row count. -/
lemma applyChanges_log_succ {s : Session} {c : String}
    {svc : String → Except String String} {run : String → Dataset → ExecResult}
    (h : (applyChanges s c svc run).2 = Outcome.success) :
    (applyChanges s c svc run).1.transformations =
      s.transformations ++
        [⟨s.transformations.length + 1, c,
          ((applyChanges s c svc run).1.df_transformed.rows.length : Int) -
            (s.df_transformed.rows.length : Int)⟩] := by
  by_cases hc : c = ""
  · simp [applyChanges, hc] at h
  · rcases hga : get_ai_command c (dfHeadStr s.df_original) svc with _ | code
    · simp [applyChanges, hc, hga] at h
    · by_cases hcode : code = ""
      · simp [applyChanges, hc, hga, hcode] at h
      · rcases hrun : run code s.df_transformed with bound | ⟨msg, aliased⟩
        · simp [applyChanges, hc, hga, hcode, hrun]
        · simp [applyChanges, hc, hga, hcode, hrun] at h

/-- On an unsuccessful click, the log is untouched. -/
lemma applyChanges_log_fail {s : Session} {c : String}
    {svc : String → Except String String} {run : String → Dataset → ExecResult}
    (h : (applyChanges s c svc run).2 ≠ Outcome.success) :
    (applyChanges s c svc run).1.transformations = s.transformations := by
  by_cases hc : c = ""
  · simp [applyChanges, hc]
  · rcases hga : get_ai_command c (dfHeadStr s.df_original) svc with _ | code
    · simp [applyChanges, hc, hga]
    · by_cases hcode : code = ""
      · simp [applyChanges, hc, hga, hcode]
      · rcases hrun : run code s.df_transformed with bound | ⟨msg, aliased⟩
        · exact absurd (by simp [applyChanges, hc, hga, hcode, hrun]) h
        · simp [applyChanges, hc, hga, hcode, hrun]

/-- The handler never touches the original dataset. -/
lemma applyChanges_original (s : Session) (c : String)
    (svc : String → Except String String) (run : String → Dataset → ExecResult) :
    (applyChanges s c svc run).1.df_original = s.df_original := by
  by_cases hc : c = ""
  · simp [applyChanges, hc]
  · rcases hga : get_ai_command c (dfHeadStr s.df_original) svc with _ | code
    · simp [applyChanges, hc, hga]
    · by_cases hcode : code = ""
      · simp [applyChanges, hc, hga, hcode]
      · rcases hrun : run code s.df_transformed with bound | ⟨msg, aliased⟩
        · simp [applyChanges, hc, hga, hcode, hrun]
        · simp [applyChanges, hc, hga, hcode, hrun]

/-- An outcome is `success` exactly when `isSuccess` says so. -/
lemma isSuccess_iff {o : Outcome} : isSuccess o = true ↔ o = Outcome.success := by
  cases o <;> simp [isSuccess]

/-- Unfolding of `runCalls` on a cons. -/
lemma runCalls_cons (s : Session) (c : Call) (cs : List Call) :
    runCalls s (c :: cs) =
      ((runCalls (applyChanges s c.cmd c.svc c.run).1 cs).1,
        (applyChanges s c.cmd c.svc c.run).2 ::
          (runCalls (applyChanges s c.cmd c.svc c.run).1 cs).2) := rfl

/-- Running any click sequence extends the log by exactly the successful
clicks: the appended step numbers continue the numbering from the
current log length, and the appended descriptions are the instructions
of the successful clicks in order. -/
lemma runCalls_log (calls : List Call) : ∀ s : Session,
    ((runCalls s calls).1.transformations.map LogEntry.step =
      s.transformations.map LogEntry.step ++
        List.range' (s.transformations.length + 1)
          ((runCalls s calls).2.countP isSuccess)) ∧
    ((runCalls s calls).1.transformations.map LogEntry.description =
      s.transformations.map LogEntry.description ++
        successDescriptions calls (runCalls s calls).2) := by
  induction calls with
  | nil =>
    intro s
    simp [runCalls, successDescriptions]
  | cons c cs ih =>
    intro s
    simp only [runCalls_cons]
    obtain ⟨ih1, ih2⟩ := ih (applyChanges s c.cmd c.svc c.run).1
    by_cases hsucc : isSuccess (applyChanges s c.cmd c.svc c.run).2
    · have hlog := applyChanges_log_succ (isSuccess_iff.mp hsucc)
      constructor
      · rw [ih1, hlog, List.countP_cons_of_pos _ _ hsucc, List.range'_succ]
        simp [List.map_append, List.length_append, List.append_assoc]
      · rw [ih2, hlog]
        simp [successDescriptions, hsucc, List.map_append, List.append_assoc]
    · have hlog := applyChanges_log_fail (fun hs => hsucc (by rw [hs]; rfl))
      constructor
      · rw [ih1, hlog, List.countP_cons_of_neg _ _ hsucc]
      · rw [ih2, hlog]
        simp [successDescriptions, hsucc]

/-- The Reset Data handler never touches the original dataset. -/
lemma resetData_original (s : Session) : (resetData s).df_original = s.df_original := rfl

/-- No sequence of apply/reset actions touches the original dataset. -/
lemma runOps_original (ops : List Op) : ∀ s : Session,
    (runOps s ops).df_original = s.df_original := by
  induction ops with
  | nil => intro s; rfl
  | cons op ops ih =>
    intro s
    show (runOps (runOp s op) ops).df_original = s.df_original
    rw [ih]
    cases op with
    | apply cmd svc run => exact applyChanges_original s cmd svc run
    | reset => rfl

/-! ## Claim theorems -/

/-- Claim C1, as written, is false on the code: a generated statement
that first empties the working table in place and then raises leaves the
working dataset changed from its pre-call state, even though the handler
catches the exception.  The execution scope binds the live working
DataFrame object, so the in-place mutation survives the failure. -/
theorem C1_counterexample :
    (applyChanges sampleSession "delete all rows" svcBoom runErrMut).2 =
        Outcome.execError "boom" ∧
      (applyChanges sampleSession "delete all rows" svcBoom runErrMut).1.df_transformed ≠
        sampleSession.df_transformed := by
  decide

/-- Claim C1 (amended): when execution of the generated statement raises,
no log entry is created, the original dataset is untouched, the surfaced
error message carries the underlying cause as a suffix, and the working
dataset is exactly the content of the aliased working object at raise
time — so it is unchanged precisely when the failing statement performed
no in-place mutation before raising. -/
theorem C1_prop (s : Session) (c : String) (svc : String → Except String String)
    (run : String → Dataset → ExecResult) (s2 : Session) (msg : String)
    (h : applyChanges s c svc run = (s2, Outcome.execError msg)) :
    s2.transformations = s.transformations ∧
    s2.df_original = s.df_original ∧
    msg.data <:+ (surfacedMessage (Outcome.execError msg)).data ∧
    ∃ code, get_ai_command c (dfHeadStr s.df_original) svc = some code ∧
      code ≠ "" ∧ run code s.df_transformed = ExecResult.err msg s2.df_transformed := by
  by_cases hc : c = ""
  · rw [hc, applyChanges_empty] at h
    simp at h
  · rcases hga : get_ai_command c (dfHeadStr s.df_original) svc with _ | code
    · simp [applyChanges, hc, hga] at h
    · by_cases hcode : code = ""
      · simp [applyChanges, hc, hga, hcode] at h
      · rcases hrun : run code s.df_transformed with bound | ⟨m, aliased⟩
        · simp [applyChanges, hc, hga, hcode, hrun] at h
        · have happ : applyChanges s c svc run =
              ({ s with df_transformed := aliased }, Outcome.execError m) := by
            simp [applyChanges, hc, hga, hcode, hrun]
          rw [happ] at h
          have h1 : ({ s with df_transformed := aliased } : Session) = s2 :=
            congrArg Prod.fst h
          have h2 : m = msg := by
            have hsnd := congrArg Prod.snd h
            simpa using hsnd
          rw [h2] at hrun
          subst h1
          refine ⟨rfl, rfl, ?_, code, rfl, hcode, hrun⟩
          show msg.data <:+ ("Oops! An error occurred: " ++ msg).data
          have hdata : ("Oops! An error occurred: " ++ msg).data =
              "Oops! An error occurred: ".data ++ msg.data := rfl
          rw [hdata]
          exact List.suffix_append _ _

/-- Witness for claim C1's amended theorem: a concrete failing click on
the sample session, with a statement that raises without mutating the
table, so the working dataset happens to be unchanged. -/
theorem C1_witness :
    sampleSession.transformations = sampleSession.transformations ∧
    sampleSession.df_original = sampleSession.df_original ∧
    "boom".data <:+ (surfacedMessage (Outcome.execError "boom")).data ∧
    ∃ code, get_ai_command "delete all rows" (dfHeadStr sampleSession.df_original) svcBoom =
        some code ∧
      code ≠ "" ∧
      runErrPure code sampleSession.df_transformed =
        ExecResult.err "boom" sampleSession.df_transformed :=
  C1_prop sampleSession "delete all rows" svcBoom runErrPure sampleSession "boom" (by decide)

/-- Claim C2: on every successful click, the appended (last) log entry
records rows_affected equal to the working dataset's row count after the
click minus its row count before, exactly — an `Int`, negative when rows
were dropped and zero for column-only edits. -/
theorem C2_prop (s : Session) (c : String) (svc : String → Except String String)
    (run : String → Dataset → ExecResult) (s2 : Session)
    (h : applyChanges s c svc run = (s2, Outcome.success)) :
    s2.transformations.getLast? =
      some ⟨s.transformations.length + 1, c,
        (s2.df_transformed.rows.length : Int) - (s.df_transformed.rows.length : Int)⟩ := by
  have h1 : (applyChanges s c svc run).1 = s2 := by rw [h]
  have h2 : (applyChanges s c svc run).2 = Outcome.success := by rw [h]
  have hlog := applyChanges_log_succ h2
  rw [h1] at hlog
  rw [hlog, List.getLast?_concat]

/-- Witness for claim C2: dropping one of the three rows of the sample
session logs rows_affected = 2 - 3 = -1. -/
theorem C2_witness :
    droppedSession.transformations.getLast? =
      some ⟨sampleSession.transformations.length + 1, "drop the first row",
        (droppedSession.df_transformed.rows.length : Int) -
          (sampleSession.df_transformed.rows.length : Int)⟩ :=
  C2_prop sampleSession "drop the first row" svcDrop runDrop droppedSession (by decide)

/-- Claim C3: starting from an empty log (fresh load or reset), after any
click sequence the log length equals the number of successful clicks, the
step numbers are exactly 1..N in order with no gaps, and the descriptions
are exactly the raw instructions of the successful clicks in order. -/
theorem C3_prop (s : Session) (calls : List Call) (h : s.transformations = []) :
    (runCalls s calls).1.transformations.length =
        (runCalls s calls).2.countP isSuccess ∧
      (runCalls s calls).1.transformations.map LogEntry.step =
        List.range' 1 ((runCalls s calls).2.countP isSuccess) ∧
      (runCalls s calls).1.transformations.map LogEntry.description =
        successDescriptions calls (runCalls s calls).2 := by
  obtain ⟨h1, h2⟩ := runCalls_log calls s
  rw [h] at h1 h2
  simp only [List.map_nil, List.length_nil, List.nil_append, Nat.zero_add] at h1 h2
  refine ⟨?_, h1, h2⟩
  have hlen := congrArg List.length h1
  simpa using hlen

/-- Witness for claim C3: two successful drops with a failing click in
between give a log of length two with steps 1, 2. -/
theorem C3_witness :
    (runCalls sampleSession sampleCalls).1.transformations.length =
        (runCalls sampleSession sampleCalls).2.countP isSuccess ∧
      (runCalls sampleSession sampleCalls).1.transformations.map LogEntry.step =
        List.range' 1 ((runCalls sampleSession sampleCalls).2.countP isSuccess) ∧
      (runCalls sampleSession sampleCalls).1.transformations.map LogEntry.description =
        successDescriptions sampleCalls (runCalls sampleSession sampleCalls).2 :=
  C3_prop sampleSession sampleCalls rfl

/-- Claim C4: after a successful load, the original dataset is
content-equal to its load-time value no matter which sequence of apply
and reset actions follows. -/
theorem C4_prop (name : String) (parsed : Dataset) (ops : List Op) :
    (runOps (initSession name parsed) ops).df_original = parsed := by
  rw [runOps_original]
  rfl

/-- Claim C5: reset always yields a working dataset content-equal to the
original (a deep copy, so the original is a separate value), an untouched
original, and an empty log; and it is idempotent — resetting twice,
including with zero transformations applied, equals resetting once. -/
theorem C5_prop (s : Session) :
    (resetData s).df_transformed = s.df_original ∧
    (resetData s).df_original = s.df_original ∧
    (resetData s).transformations = [] ∧
    resetData (resetData s) = resetData s :=
  ⟨rfl, rfl, rfl, rfl⟩

/-- Claim C7, as written, is false on the code: when the service call
succeeds but returns an empty response, `get_ai_command` returns the
cleaned empty string, not the sentinel `None`. -/
theorem C7_counterexample :
    get_ai_command "square the ages" "sample" svcEmpty = some "" ∧
      some "" ≠ (none : Option String) := by
  decide

/-- Claim C7 (amended): the translator returns `None` whenever the
service round trip raises; an empty or fence-only response yields the
cleaned string, possibly `""`; the caller's truthiness check treats
`None` and `""` alike — in both cases it surfaces could-not-generate and
leaves the whole session state unchanged. -/
theorem C7_prop (q dh c : String) (s : Session)
    (f svc : String → Except String String) (run : String → Dataset → ExecResult)
    (e : String) :
    (f (promptFor q dh) = Except.error e → get_ai_command q dh f = none) ∧
    (c ≠ "" →
      (get_ai_command c (dfHeadStr s.df_original) svc = none ∨
        get_ai_command c (dfHeadStr s.df_original) svc = some "") →
      applyChanges s c svc run = (s, Outcome.couldNotGenerate)) := by
  constructor
  · intro hf
    simp [get_ai_command, hf]
  · intro hc habs
    rcases habs with hga | hga <;> simp [applyChanges, hc, hga]

/-- Witness for claim C7's amended theorem: a network failure yields
`None`; an empty response leaves the sample session unchanged with the
could-not-generate warning. -/
theorem C7_witness :
    get_ai_command "square the ages" "sample" svcDown = none ∧
    applyChanges sampleSession "square the ages" svcEmpty runDrop =
      (sampleSession, Outcome.couldNotGenerate) :=
  ⟨(C7_prop "square the ages" "sample" "square the ages" sampleSession svcDown
      svcEmpty runDrop "network unreachable").1 rfl,
   (C7_prop "square the ages" "sample" "square the ages" sampleSession svcDown
      svcEmpty runDrop "network unreachable").2 (by decide) (Or.inr (by decide))⟩

/-- Claim C8: a click with the empty instruction is a pure no-op with the
warning outcome — no oracle (service or executor) is consulted, since the
result is the unchanged session for every oracle, and the original,
working and log fields are all those of the input session. -/
theorem C8_prop (s : Session) (svc : String → Except String String)
    (run : String → Dataset → ExecResult) :
    applyChanges s "" svc run = (s, Outcome.emptyCommand) ∧
    surfacedMessage Outcome.emptyCommand = "Please enter a command." :=
  ⟨applyChanges_empty s svc run, rfl⟩

/-- Claim C10: re-uploading a file whose name equals the stored file
identity never reinitializes the session: the stored state is returned
unchanged for every parse result of the new contents — even a differing
or malformed file — because the contents are never parsed. -/
theorem C10_prop (s : Session) (name : String)
    (parseResult : Except String Dataset) (h : s.file_id = name) :
    handleUpload (some s) name parseResult = Except.ok s := by
  simp [handleUpload, h]

/-- Witness for claim C10: re-uploading `data.csv` with completely
different contents keeps the sample session intact. -/
theorem C10_witness :
    handleUpload (some sampleSession) "data.csv"
        (Except.ok ⟨["totally"], [["different"]]⟩) = Except.ok sampleSession ∧
      (⟨["totally"], [["different"]]⟩ : Dataset) ≠ sampleSession.df_original :=
  ⟨C10_prop sampleSession "data.csv" (Except.ok ⟨["totally"], [["different"]]⟩) rfl,
   by decide⟩

end DataMagic
